import Mathlib

/-!
Verification of the rail-trip speed-compliance analyzer.

This file is a shallow embedding of the core analysis engine (the
`analyzeData` pipeline and its helpers in the canonical revision of the
analyzer module): telemetry preparation, spatial matching, linear chainage
projection, caution-zone limit resolution, speed classification, brake-test
detection and stoppage detection.

Modelling conventions:
- JavaScript floating-point numbers are modelled as exact rationals `ℚ`;
  decimal literals of the source (`0.1`, `1.1`, `0.5`) are read as the
  exact rationals they denote.
- Speeds are integers (`ℤ`) after the source's `Math.round`; timestamps are
  integers (milliseconds since epoch, the result of `Date.getTime()`).
- `NaN` results of `cleanCoord` / failed numeric parses are modelled as
  `Option.none`.
- The transcendental geodesy primitives `getDistance` (haversine) and
  `getBearing`, which are pure functions of four coordinates, are abstracted
  as function parameters `distF bearingF : ℚ → ℚ → ℚ → ℚ → ℚ`; every
  definition that the source builds on top of them is embedded literally.
- OHE label strings are modelled by the outcome of the source's parse
  (`oheToMeters`): a `km/pole` pair, a plain numeric kilometre value, or an
  unparseable/empty string.
- String-valued display fields (location names, `details`, timestamp
  strings) carry no logic and are omitted from the embedded records; the
  numeric/time payload of every record is kept.
- The `Map`-backed spatial grid index is embedded by its query semantics:
  the union of the 3×3 block of cells around the query point, i.e. the
  points whose cell coordinates differ from the query cell by at most 1 in
  each axis.
-/

/-- Match status of an analyzed point, from the `AnalysisResult` interface. -/
inductive Status where
  | ok
  | warning
  | violation
deriving DecidableEq, Repr

/-- Source catalogue of an asset. -/
inductive Source where
  | OHE
  | Signal
deriving DecidableEq, Repr

/-- Brake test kind (`'BFT' | 'BPT'`). -/
inductive TestKind where
  | BFT
  | BPT
deriving DecidableEq, Repr

/-- Brake test status (`'proper' | 'improper' | 'not_performed'`). -/
inductive TestStatus where
  | proper
  | improper
  | not_performed
deriving DecidableEq, Repr

/-- Train type selects the train length (600 m passenger, 700 m goods). -/
inductive TrainType where
  | passenger
  | goods
deriving DecidableEq, Repr

/-- Outcome of parsing an OHE label string in `oheToMeters`: either a
`km/pole` pair, a plain numeric kilometre value, or an empty/unparseable
string (the `NaN`/empty cases, which the source maps to 0). -/
inductive OheLabel where
  | kmPole (km pole : ℚ)
  | plain (v : ℚ)
  | invalid
deriving DecidableEq, Repr

/-- A cleaned telemetry sample (the source's internal `GPSPoint`):
original row index `idx`, coordinates, integer-rounded speed, timestamp in
milliseconds and the computed heading. -/
structure Sample where
  idx : ℕ
  lat : ℚ
  lon : ℚ
  speed : ℤ
  time : ℤ
  heading : ℚ
deriving DecidableEq, Repr

/-- Default sample standing in for JavaScript's out-of-range array access. -/
def dummySample : Sample := ⟨0, 0, 0, 0, 0, 0⟩

instance : Inhabited Sample := ⟨dummySample⟩

/-- A user-supplied caution order (`{startOhe, endOhe, speedLimit}`). -/
structure CautionOrder where
  startOhe : OheLabel
  endOhe : OheLabel
  speedLimit : ℚ
deriving DecidableEq, Repr

/-- A raw telemetry row after column resolution: possibly-unparseable
latitude/longitude/speed and a timestamp in milliseconds. -/
structure RawRow where
  lat : Option ℚ
  lon : Option ℚ
  speed : Option ℚ
  time : ℤ
deriving DecidableEq, Repr

/-- A row of the asset catalogue (master data): label and possibly
unparseable coordinates. -/
structure AssetRow where
  label : OheLabel
  lat : Option ℚ
  lon : Option ℚ
deriving DecidableEq, Repr

/-- Per-asset output record (the source's `AnalysisResult`); the display
string `location` is kept as the parsed label, `logging_time` as the matched
sample's timestamp when present. -/
structure AnalysisResult where
  location : OheLabel
  latitude : ℚ
  longitude : ℚ
  logging_time : Option ℤ
  speed_kmph : Option ℤ
  limit_applied : Option ℚ
  status : Status
  matched : Bool
  source : Source
  chainage : ℚ
deriving DecidableEq, Repr

/-- A brake test record (the source's `BrakeTestResult` without its display
strings). -/
structure BrakeTest where
  kind : TestKind
  status : TestStatus
  startSpeed : ℤ
  lowestSpeed : ℤ
  dropAmount : ℤ
deriving DecidableEq, Repr

/-- A stoppage record (the source's `Stoppage` without its display string). -/
structure Stoppage where
  latitude : ℚ
  longitude : ℚ
  arrivalTime : ℤ
  departureTime : ℤ
  durationMin : ℤ
  isSignal : Bool
deriving DecidableEq, Repr

/-- Convert an OHE label to linear meters (`oheToMeters`): `km/pole` becomes
`km*1000 + pole*60` (60 m standard span), a plain value becomes `v*1000`,
and an unparseable label becomes 0. -/
def oheToMeters : OheLabel → ℚ
  | .kmPole km pole => km * 1000 + pole * 60
  | .plain v => v * 1000
  | .invalid => 0

/-- Speed classification of a matched OHE point against its applied limit,
from the matched branch of `processDataset`:
violation above `limit + 3`, warning above `limit`, else ok. -/
def classify (speed limitApplied : ℚ) : Status :=
  if speed > limitApplied + 3 then .violation
  else if speed > limitApplied then .warning
  else .ok

/-- One caution order's contribution to the applicable limit (the body of
the `getApplicableLimitLinear` loop): lower the running limit when the
chainage falls in the normalized zone extended by the train length. -/
def limitStep (currentChainage trainLength limit : ℚ) (co : CautionOrder) : ℚ :=
  let startM := oheToMeters co.startOhe
  let endM := oheToMeters co.endOhe
  let zoneStart := min startM endM
  let zoneEnd := max startM endM
  let effectiveEnd := zoneEnd + trainLength
  if zoneStart ≤ currentChainage ∧ currentChainage ≤ effectiveEnd then
    (if co.speedLimit < limit then co.speedLimit else limit)
  else limit

/-- Resolve the applicable speed limit at a linear chainage
(`getApplicableLimitLinear`): start from the global MPS and lower it by
every caution order whose extended zone `[min(start,end), max(start,end) +
trainLength]` contains the chainage. -/
def getApplicableLimitLinear (currentChainage globalMPS : ℚ)
    (cautionOrders : List CautionOrder) (trainLength : ℚ) : ℚ :=
  cautionOrders.foldl (limitStep currentChainage trainLength) globalMPS

/-- Project a train position onto the segment between two consecutive OHE
assets (`getProjectedChainage`), with the geodesy primitives `bearingF`
(initial bearing) and `distF` (haversine distance) abstracted as parameters.
Rejects when the segment bearing differs from the train heading by more than
45° (after folding the absolute difference into `[0,180]`), or when the
normalized projection parameter `t` (−1 for a degenerate segment) is outside
`[-0.1, 1.1]`; otherwise returns `segStartMeters + t * segmentLength`. -/
def getProjectedChainage (bearingF distF : ℚ → ℚ → ℚ → ℚ → ℚ)
    (trainLat trainLon trainHeading segStartLat segStartLon segStartMeters
     segEndLat segEndLon : ℚ) : Option ℚ :=
  let segBearing := bearingF segStartLat segStartLon segEndLat segEndLon
  let diff0 := |segBearing - trainHeading|
  let diff := if diff0 > 180 then 360 - diff0 else diff0
  if diff > 45 then none
  else
    let ABx := segEndLat - segStartLat
    let ABy := segEndLon - segStartLon
    let APx := trainLat - segStartLat
    let APy := trainLon - segStartLon
    let dot := APx * ABx + APy * ABy
    let lenSq := ABx * ABx + ABy * ABy
    let t := if lenSq ≠ 0 then dot / lenSq else -1
    if t < -(1/10) ∨ t > 11/10 then none
    else some (segStartMeters + t * distF segStartLat segStartLon segEndLat segEndLon)

/-- Spec-side smallest angular difference between two bearings, taken
modulo 360 (the smaller of the two arcs between them). -/
def angleDelta (b h : ℚ) : ℚ := min |b - h| (360 - |b - h|)

/-- Spec-side normalized projection parameter of P onto the line through A
and B in raw coordinate space, −1 when the segment is degenerate. -/
def projParam (pLat pLon aLat aLon bLat bLon : ℚ) : ℚ :=
  let ABx := bLat - aLat
  let ABy := bLon - aLon
  let APx := pLat - aLat
  let APy := pLon - aLon
  let lenSq := ABx * ABx + ABy * ABy
  if lenSq = 0 then -1 else (APx * ABx + APy * ABy) / lenSq

/-- Grid cell of a coordinate pair (`GridIndex.cell`): floor of each
coordinate divided by the cell size. -/
def cellOf (gridDeg lat lon : ℚ) : ℤ × ℤ := (⌊lat / gridDeg⌋, ⌊lon / gridDeg⌋)

/-- Query of the spatial grid index (`GridIndex.query`): all inserted points
lying in the 3×3 block of cells centered on the query point's cell. This is
the set the `Map`-based bucket implementation returns (bucket iteration
order aside, which no analyzed property depends on). -/
def gridQuery (gridDeg : ℚ) (pts : List Sample) (lat lon : ℚ) : List Sample :=
  let cx := ⌊lat / gridDeg⌋
  let cy := ⌊lon / gridDeg⌋
  pts.filter (fun p =>
    decide ((cellOf gridDeg p.lat p.lon).1 - cx ≤ 1) &&
    decide (cx - (cellOf gridDeg p.lat p.lon).1 ≤ 1) &&
    decide ((cellOf gridDeg p.lat p.lon).2 - cy ≤ 1) &&
    decide (cy - (cellOf gridDeg p.lat p.lon).2 ≤ 1))

/-- Match threshold (`processDataset`): the caller-supplied max distance
when positive, else the 500 m default. -/
def thresholdOf (maxDistance : ℚ) : ℚ :=
  if 0 < maxDistance then maxDistance else 500

/-- Effective coordinates of an asset row after the swapped-coordinate
auto-fix (`if (lat > 60 && lon < 40) swap`); `none` when either coordinate
failed to parse. -/
def effCoords (row : AssetRow) : Option (ℚ × ℚ) :=
  match row.lat, row.lon with
  | some la, some lo => some (if la > 60 ∧ lo < 40 then (lo, la) else (la, lo))
  | _, _ => none

/-- One candidate step of the source's `forEach` nearest-point search:
look the candidate's stored index up in the cleaned telemetry array
(`rtisCleaned[c.idx]`, like the source) and keep it if its distance is
strictly smaller than the best so far (`none` is the initial
`bestDist = Infinity` state, which any first candidate beats). -/
def candStep (distF : ℚ → ℚ → ℚ → ℚ → ℚ) (tele : List Sample) (lat lon : ℚ)
    (best : Option (Sample × ℚ)) (c : Sample) : Option (Sample × ℚ) :=
  let rtisPt := tele.getD c.idx dummySample
  let dist := distF lat lon rtisPt.lat rtisPt.lon
  match best with
  | none => some (rtisPt, dist)
  | some (bp, bd) => if dist < bd then some (rtisPt, dist) else some (bp, bd)

/-- Best telemetry candidate for an asset: fold of the source's `forEach`
over the spatial-grid candidates. -/
def bestCandidate (distF : ℚ → ℚ → ℚ → ℚ → ℚ) (tele : List Sample)
    (lat lon : ℚ) : Option (Sample × ℚ) :=
  (gridQuery (1/100) tele lat lon).foldl (candStep distF tele lat lon) none

/-- Body of the `processDataset` loop for one asset row: `none` when the
row's coordinates do not parse (the loop's `continue`), else the produced
`AnalysisResult` paired with the matched telemetry sample (if any), which
the caller uses to maintain the matched-index bounds. -/
def processAsset (bearingF distF : ℚ → ℚ → ℚ → ℚ → ℚ) (tele : List Sample)
    (threshold globalMPS : ℚ) (cautionOrders : List CautionOrder)
    (trainLength : ℚ) (srcType : Source) (row : AssetRow)
    (next : Option AssetRow) : Option (AnalysisResult × Option Sample) :=
  match effCoords row with
  | none => none
  | some (lat, lon) =>
    match bestCandidate distF tele lat lon with
    | some (bestP, bestDist) =>
      if bestDist ≤ threshold then
        if srcType = .OHE then
          let oheMeters := oheToMeters row.label
          let snapped :=
            match next with
            | some nextRow =>
              match nextRow.lat, nextRow.lon with
              | some nextLat, some nextLon =>
                getProjectedChainage bearingF distF bestP.lat bestP.lon
                  bestP.heading lat lon oheMeters nextLat nextLon
              | _, _ => none
            | none => none
          let snappedMeters := snapped.getD oheMeters
          let limitApplied :=
            getApplicableLimitLinear snappedMeters globalMPS cautionOrders trainLength
          some ({ location := row.label, latitude := lat, longitude := lon,
                  logging_time := some bestP.time, speed_kmph := some bestP.speed,
                  limit_applied := some limitApplied,
                  status := classify (bestP.speed : ℚ) limitApplied,
                  matched := true, source := srcType,
                  chainage := snappedMeters }, some bestP)
        else
          some ({ location := row.label, latitude := lat, longitude := lon,
                  logging_time := some bestP.time, speed_kmph := some bestP.speed,
                  limit_applied := none, status := .ok, matched := true,
                  source := srcType, chainage := 0 }, some bestP)
      else
        some ({ location := row.label, latitude := lat, longitude := lon,
                logging_time := none, speed_kmph := none, limit_applied := none,
                status := .ok, matched := false, source := srcType,
                chainage := 0 }, none)
    | none =>
      some ({ location := row.label, latitude := lat, longitude := lon,
              logging_time := none, speed_kmph := none, limit_applied := none,
              status := .ok, matched := false, source := srcType,
              chainage := 0 }, none)

/-- Pair each list element with its successor, the loop's
`data[i]` / `data[i+1]` lookahead. -/
def withNext : List α → List (α × Option α)
  | [] => []
  | [a] => [(a, none)]
  | a :: b :: t => (a, some b) :: withNext (b :: t)

/-- The `processDataset` loop over a whole catalogue: skipped rows produce
nothing, every other row produces one result (and possibly a matched
telemetry sample). -/
def processDataset (bearingF distF : ℚ → ℚ → ℚ → ℚ → ℚ) (tele : List Sample)
    (threshold globalMPS : ℚ) (cautionOrders : List CautionOrder)
    (trainLength : ℚ) (srcType : Source) (data : List AssetRow) :
    List (AnalysisResult × Option Sample) :=
  (withNext data).filterMap (fun rn =>
    processAsset bearingF distF tele threshold globalMPS cautionOrders
      trainLength srcType rn.1 rn.2)

/-- Summary counters over the produced results (`analyzeData` step 9). -/
def totalStructures (rs : List AnalysisResult) : ℕ := rs.length

/-- Count of matched results. -/
def matchedStructures (rs : List AnalysisResult) : ℕ :=
  (rs.filter (fun r => r.matched)).length

/-- Count of violation-classified results. -/
def violationCount (rs : List AnalysisResult) : ℕ :=
  (rs.filter (fun r => r.status == Status.violation)).length

/-- Count of warning-classified results. -/
def warningCount (rs : List AnalysisResult) : ℕ :=
  (rs.filter (fun r => r.status == Status.warning)).length

/-- Build a typed telemetry sample from an indexed raw row (`analyzeData`
step 2's `map`): apply the swapped-coordinate auto-fix, round the speed
(0 when unparseable); `none` when a coordinate is unparseable or zero (the
subsequent validity `filter`). -/
def mkSample (i : ℕ) (r : RawRow) : Option Sample :=
  match r.lat, r.lon with
  | some la0, some lo0 =>
    let c := if la0 > 60 ∧ lo0 < 40 then (lo0, la0) else (la0, lo0)
    if c.1 ≠ 0 ∧ c.2 ≠ 0 then
      some { idx := i, lat := c.1, lon := c.2,
             speed := (r.speed.map (fun q => round q)).getD 0,
             time := r.time, heading := 0 }
    else none
  | _, _ => none

/-- Keep a sample inside the optional `[departureTime, arrivalTime]`
window: a missing departure bound is 0, a missing arrival bound is
`Infinity` (no upper constraint). -/
def inWindow (dep arr : Option ℤ) (t : ℤ) : Bool :=
  decide (dep.getD 0 ≤ t) &&
    (match arr with
     | none => true
     | some a => decide (t ≤ a))

/-- Stable insertion of a sample into a time-sorted list (strictly-before
elements pass; insertion after equal timestamps preserves the original
order, as the stable JavaScript `sort` does). -/
def insertByTime (p : Sample) : List Sample → List Sample
  | [] => [p]
  | q :: t => if p.time < q.time then p :: q :: t else q :: insertByTime p t

/-- Stable sort of telemetry by ascending timestamp, modelling
`sort((a, b) => a.time - b.time)`. -/
def sortByTime (l : List Sample) : List Sample := l.foldr insertByTime []

/-- Heading assignment pass over the time-sorted telemetry: a sample whose
displacement to the next sample exceeds 5 m takes the bearing to that
sample, otherwise it inherits the previous sample's heading (0 before any
movement); the final sample inherits the previous heading. -/
def assignHeadings (bearingF distF : ℚ → ℚ → ℚ → ℚ → ℚ) :
    ℚ → List Sample → List Sample
  | _, [] => []
  | prev, [p] => [{ p with heading := prev }]
  | prev, p :: q :: t =>
    let h := if distF p.lat p.lon q.lat q.lon > 5 then bearingF p.lat p.lon q.lat q.lon
             else prev
    { p with heading := h } :: assignHeadings bearingF distF h (q :: t)

/-- Telemetry preparation (`analyzeData` step 2): type the rows, drop
invalid coordinates, filter to the optional time window, sort by timestamp
and compute headings. -/
def prepareTelemetry (bearingF distF : ℚ → ℚ → ℚ → ℚ → ℚ) (rows : List RawRow)
    (dep arr : Option ℤ) : List Sample :=
  let typed := (rows.enum.filterMap (fun ir => mkSample ir.1 ir.2)).filter
    (fun p => inWindow dep arr p.time)
  assignHeadings bearingF distF 0 (sortByTime typed)

/-- Minimum and maximum original row index over the matched telemetry
samples (`firstMatchedRtisIndex` / `lastMatchedRtisIndex`); `none` when no
asset matched (the `Infinity` / `-1` sentinels). -/
def matchedIdxBounds (matched : List Sample) : Option (ℕ × ℕ) :=
  match matched with
  | [] => none
  | m :: t => some (t.foldl (fun a x => min a x.idx) m.idx,
                    t.foldl (fun a x => max a x.idx) m.idx)

/-- The valid section (`analyzeData` step 6): the cleaned telemetry samples
whose original row index lies between the first and last matched index;
empty when nothing matched. -/
def validSection (cleaned matched : List Sample) : List Sample :=
  match matchedIdxBounds matched with
  | none => []
  | some (f, l) => cleaned.filter (fun p => decide (f ≤ p.idx) && decide (p.idx ≤ l))

/-- One step of the BFT lookahead-window minimum: take the smaller speed,
and force the minimum to 0 on a zero-speed sample (the source's explicit
zero case). -/
def bftWindUpd (m s : ℤ) : ℤ :=
  let m1 := if s < m then s else m
  if s = 0 then 0 else m1

/-- Minimum speed over the BFT lookahead window of up to 20 samples
starting at index `i` (inclusive), seeded with the start sample's speed. -/
def bftWindowMin (sec : List Sample) (i : ℕ) : ℤ :=
  ((sec.drop i).take 20).foldl (fun m p => bftWindUpd m p.speed)
    (sec.getD i dummySample).speed

/-- One iteration of the BFT scan at index `i`: `improper` when the speed
crosses 15 without a prior qualifying test, `proper` when the speed is in
`[10, 15]` and the lookahead window drops by at least 5, else keep
scanning. -/
def bftStep (sec : List Sample) (i : ℕ) : Option BrakeTest :=
  let p := sec.getD i dummySample
  if p.speed > 15 then
    some { kind := .BFT, status := .improper, startSpeed := p.speed,
           lowestSpeed := p.speed, dropAmount := 0 }
  else if 10 ≤ p.speed ∧ p.speed ≤ 15 then
    let m := bftWindowMin sec i
    if 5 ≤ p.speed - m then
      some { kind := .BFT, status := .proper, startSpeed := p.speed,
             lowestSpeed := m, dropAmount := p.speed - m }
    else none
  else none

/-- Run an index-based scan from position `s` for `n` steps, stopping at
the first step that produces a result (the `for`/`break` loop shape). -/
def scanIdx (f : ℕ → Option α) : ℕ → ℕ → Option α
  | _, 0 => none
  | s, n + 1 =>
    match f s with
    | some v => some v
    | none => scanIdx f (s + 1) n

/-- The BFT scan over the valid section: indices `0 ≤ i <
sec.length - 1`, first verdict wins. -/
def bftScan (sec : List Sample) : Option BrakeTest :=
  scanIdx (bftStep sec) 0 (sec.length - 1)

/-- Minimum speed over the BPT lookahead window of up to 60 samples
starting at index `i` (inclusive). -/
def bptWindowMin (sec : List Sample) (i : ℕ) : ℤ :=
  ((sec.drop i).take 60).foldl (fun m p => if p.speed < m then p.speed else m)
    (sec.getD i dummySample).speed

/-- The BPT scan: walk indices `0 ≤ i < sec.length - 1`, stop as soon as a
sample lies more than 15 000 m (haversine) from the section start; report
`proper` at the first sample with speed ≥ 60 whose 60-sample lookahead
drops to at most half that speed. -/
def bptGo (distF : ℚ → ℚ → ℚ → ℚ → ℚ) (start : Sample) (sec : List Sample) :
    ℕ → ℕ → Option BrakeTest
  | _, 0 => none
  | s, n + 1 =>
    let p := sec.getD s dummySample
    if distF start.lat start.lon p.lat p.lon > 15000 then none
    else
      let m := bptWindowMin sec s
      if 60 ≤ p.speed ∧ (m : ℚ) ≤ (p.speed : ℚ) * (1/2) then
        some { kind := .BPT, status := .proper, startSpeed := p.speed,
               lowestSpeed := m, dropAmount := p.speed - m }
      else bptGo distF start sec (s + 1) n

/-- The BPT fallback: if the scan found no qualifying drop but some sample
did reach 60 km/h within 15 000 m of the section start, report `improper`
at the first such sample; otherwise report nothing. -/
def bptFallback (distF : ℚ → ℚ → ℚ → ℚ → ℚ) (start : Sample)
    (sec : List Sample) : List BrakeTest :=
  match sec.find? (fun p => decide (60 ≤ p.speed)) with
  | some opp =>
    if distF start.lat start.lon opp.lat opp.lon ≤ 15000 then
      [{ kind := .BPT, status := .improper, startSpeed := opp.speed,
         lowestSpeed := opp.speed, dropAmount := 0 }]
    else []
  | none => []

/-- The BPT verdict list: the scan's `proper` verdict if any, else the
`improper` fallback (possibly empty). -/
def bptResultList (distF : ℚ → ℚ → ℚ → ℚ → ℚ) (start : Sample)
    (sec : List Sample) : List BrakeTest :=
  match bptGo distF start sec 0 (sec.length - 1) with
  | some r => [r]
  | none => bptFallback distF start sec

/-- Brake-test detection over the valid section (`analyzeData` step 7):
an entry speed above 15 km/h forces `not_performed` records for both BFT
and BPT; otherwise the BFT scan's verdict (if any) is followed by the BPT
scan's verdict or its `improper` fallback. -/
def brakeTests (distF : ℚ → ℚ → ℚ → ℚ → ℚ) (sec : List Sample) :
    List BrakeTest :=
  match sec with
  | [] => []
  | start :: _ =>
    if start.speed > 15 then
      [{ kind := .BFT, status := .not_performed, startSpeed := start.speed,
         lowestSpeed := start.speed, dropAmount := 0 },
       { kind := .BPT, status := .not_performed, startSpeed := start.speed,
         lowestSpeed := start.speed, dropAmount := 0 }]
    else
      (bftScan sec).toList ++ bptResultList distF start sec

/-- Build a stoppage record from the first zero-speed sample of a run and
the first subsequent non-zero-speed sample; `near` abstracts the
`isNearSignal` lookup against the signal results. -/
def mkStoppage (near : Sample → Bool) (s p : Sample) : Stoppage :=
  { latitude := s.lat, longitude := s.lon, arrivalTime := s.time,
    departureTime := p.time,
    durationMin := round (((p.time - s.time : ℤ) : ℚ) / 60000),
    isSignal := near s }

/-- The stoppage scan (`analyzeData` step 8): track the first sample of a
zero-speed run; when a non-zero sample ends the run, report a stoppage
exactly when the run lasted strictly more than 30 000 ms. -/
def stopScan (near : Sample → Bool) : Option Sample → List Sample → List Stoppage
  | _, [] => []
  | acc, p :: rest =>
    if p.speed = 0 then
      match acc with
      | none => stopScan near (some p) rest
      | some s => stopScan near (some s) rest
    else
      match acc with
      | none => stopScan near none rest
      | some s =>
        (if p.time - s.time > 30000 then [mkStoppage near s p] else []) ++
          stopScan near none rest

/-- Stoppage detection over the valid section. -/
def stoppages (near : Sample → Bool) (sec : List Sample) : List Stoppage :=
  stopScan near none sec

/-- The aggregate summary (`AnalysisSummary` without the display-only and
halt-approach fields; the halt-approach detector is outside the analyzed
properties). -/
structure AnalysisSummary where
  total_structures : ℕ
  matched_structures : ℕ
  unmatched_structures : ℕ
  match_rate : ℚ
  avg_speed : ℚ
  max_speed : ℤ
  min_speed : ℤ
  violation_count : ℕ
  warning_count : ℕ
  config_mps : ℚ
  train_type : TrainType
  stoppages : List Stoppage
  brake_tests : List BrakeTest
deriving DecidableEq, Repr

/-- The core analysis pipeline (`analyzeData` after CSV/column resolution,
for an OHE master catalogue; the optional signal catalogue only feeds the
display name and signal tag of stoppages and the halt-approach detector,
which are outside the analyzed properties, so `isNearSignal` is constantly
false here): prepare telemetry, match every asset, derive the valid
section, run the brake-test and stoppage detectors and aggregate the
summary. -/
def analyzeCore (bearingF distF : ℚ → ℚ → ℚ → ℚ → ℚ) (rows : List RawRow)
    (oheData : List AssetRow) (maxDistance globalMPS : ℚ)
    (cautionOrders : List CautionOrder) (trainType : TrainType)
    (dep arr : Option ℤ) : AnalysisSummary × List AnalysisResult :=
  let rtisCleaned := prepareTelemetry bearingF distF rows dep arr
  let trainLength : ℚ := if trainType = .goods then 700 else 600
  let processed := processDataset bearingF distF rtisCleaned
    (thresholdOf maxDistance) globalMPS cautionOrders trainLength .OHE oheData
  let finalResults := processed.map (fun x => x.1)
  let matchedSamples := processed.filterMap (fun x => x.2)
  let validSectionData := validSection rtisCleaned matchedSamples
  let bts := brakeTests distF validSectionData
  let stops := stoppages (fun _ => false) validSectionData
  let allSpeeds := validSectionData.map (fun p => p.speed)
  let matchedLen := matchedStructures finalResults
  ({ total_structures := totalStructures finalResults,
     matched_structures := matchedLen,
     unmatched_structures := totalStructures finalResults - matchedLen,
     match_rate := if 0 < finalResults.length then
       ((matchedLen : ℚ) / (finalResults.length : ℚ)) * 100 else 0,
     avg_speed := if 0 < allSpeeds.length then
       ((allSpeeds.foldl (· + ·) 0 : ℤ) : ℚ) / (allSpeeds.length : ℚ) else 0,
     max_speed := match allSpeeds with | [] => 0 | a :: t => t.foldl max a,
     min_speed := match allSpeeds with | [] => 0 | a :: t => t.foldl min a,
     violation_count := violationCount finalResults,
     warning_count := warningCount finalResults,
     config_mps := globalMPS,
     train_type := trainType,
     stoppages := stops,
     brake_tests := bts }, finalResults)

/-- Spec-side qualification of a scan index for a `proper` BFT verdict:
the sample's speed lies in `[10, 15]` and the lookahead-window minimum is
at least 5 below it (a window speed of 0 qualifies since the minimum is
then 0). -/
def bftQualifies (sec : List Sample) (i : ℕ) : Prop :=
  10 ≤ (sec.getD i dummySample).speed ∧ (sec.getD i dummySample).speed ≤ 15 ∧
    bftWindowMin sec i ≤ (sec.getD i dummySample).speed - 5

instance (sec : List Sample) (i : ℕ) : Decidable (bftQualifies sec i) := by
  unfold bftQualifies; infer_instance

/-- Spec-side disqualification of a scan index: the speed crossed 15 km/h,
which ends the BFT scan with an `improper` verdict. -/
def bftDisqualifies (sec : List Sample) (i : ℕ) : Prop :=
  15 < (sec.getD i dummySample).speed

instance (sec : List Sample) (i : ℕ) : Decidable (bftDisqualifies sec i) := by
  unfold bftDisqualifies; infer_instance

/-- Spec-side containment of a chainage in a caution order's extended zone
`[min(start, end), max(start, end) + trainLength]`. -/
def inZone (co : CautionOrder) (c trainLength : ℚ) : Prop :=
  min (oheToMeters co.startOhe) (oheToMeters co.endOhe) ≤ c ∧
    c ≤ max (oheToMeters co.startOhe) (oheToMeters co.endOhe) + trainLength

instance (co : CautionOrder) (c trainLength : ℚ) :
    Decidable (inZone co c trainLength) := by
  unfold inZone; infer_instance

/-- C1. For every point with applied limit `L` and speed `s`, the
classifier yields `violation` iff `s > L + 3`, `warning` iff
`L < s ≤ L + 3`, and `ok` iff neither (i.e. `s ≤ L`); in particular with
`L = 100`, speed 100 is `ok`, 103 is `warning` and 104 is `violation`. -/
theorem C1_classification_boundary (s L : ℚ) :
    (classify s L = .violation ↔ L + 3 < s) ∧
    (classify s L = .warning ↔ L < s ∧ s ≤ L + 3) ∧
    (classify s L = .ok ↔ ¬(L + 3 < s) ∧ ¬(L < s ∧ s ≤ L + 3)) ∧
    classify 100 100 = .ok ∧ classify 103 100 = .warning ∧
    classify 104 100 = .violation := by
  have hv : L + 3 < s → classify s L = .violation := by
    intro h; unfold classify
    rw [if_pos (show s > L + 3 from h)]
  have hw : L < s → s ≤ L + 3 → classify s L = .warning := by
    intro h1 h2; unfold classify
    rw [if_neg (show ¬ s > L + 3 from not_lt.mpr h2), if_pos (show s > L from h1)]
  have hok : s ≤ L → classify s L = .ok := by
    intro h; unfold classify
    rw [if_neg (show ¬ s > L + 3 by linarith), if_neg (show ¬ s > L from not_lt.mpr h)]
  have tri : s ≤ L ∨ (L < s ∧ s ≤ L + 3) ∨ L + 3 < s := by
    rcases le_or_lt s L with h | h
    · exact Or.inl h
    · rcases le_or_lt s (L + 3) with h2 | h2
      · exact Or.inr (Or.inl ⟨h, h2⟩)
      · exact Or.inr (Or.inr h2)
  refine ⟨⟨?_, hv⟩, ⟨?_, fun h => hw h.1 h.2⟩, ⟨?_, ?_⟩,
    by norm_num [classify], by norm_num [classify], by norm_num [classify]⟩
  · intro hc
    rcases tri with h | h | h
    · rw [hok h] at hc; exact absurd hc (by decide)
    · rw [hw h.1 h.2] at hc; exact absurd hc (by decide)
    · exact h
  · intro hc
    rcases tri with h | h | h
    · rw [hok h] at hc; exact absurd hc (by decide)
    · exact h
    · rw [hv h] at hc; exact absurd hc (by decide)
  · intro hc
    rcases tri with h | h | h
    · exact ⟨by linarith, fun hh => by linarith [hh.1]⟩
    · rw [hw h.1 h.2] at hc; exact absurd hc (by decide)
    · rw [hv h] at hc; exact absurd hc (by decide)
  · rintro ⟨hn1, hn2⟩
    rcases tri with h | h | h
    · exact hok h
    · exact absurd h hn2
    · exact absurd h hn1

/-- C1 witness: the classifier evaluated at the boundary triple. -/
theorem C1_classification_boundary_witness :
    classify 103 100 = .warning ↔ (100 : ℚ) < 103 ∧ (103 : ℚ) ≤ 100 + 3 :=
  (C1_classification_boundary 103 100).2.1

/-- C2. A caution order's effective zone is exactly the closed interval
`[min(start, end), max(start, end) + trainLength]` over the label-derived
chainages: at every chainage inside it the single order yields
`min(globalMPS, speedLimit)`, and an order whose zone does not contain the
chainage can be deleted from any order list without changing the resolved
limit. -/
theorem C2_caution_zone_interval (co : CautionOrder) (c globalMPS trainLength : ℚ) :
    (inZone co c trainLength →
      getApplicableLimitLinear c globalMPS [co] trainLength =
        min globalMPS co.speedLimit) ∧
    (¬inZone co c trainLength → ∀ (pre post : List CautionOrder) (m0 : ℚ),
      getApplicableLimitLinear c m0 (pre ++ co :: post) trainLength =
        getApplicableLimitLinear c m0 (pre ++ post) trainLength) := by
  have hstep : ∀ (limit : ℚ), limitStep c trainLength limit co =
      if inZone co c trainLength then
        (if co.speedLimit < limit then co.speedLimit else limit)
      else limit := fun _ => rfl
  constructor
  · intro hin
    unfold getApplicableLimitLinear
    rw [List.foldl_cons, List.foldl_nil, hstep, if_pos hin]
    rcases lt_or_le co.speedLimit globalMPS with h | h
    · rw [if_pos h, min_eq_right (le_of_lt h)]
    · rw [if_neg (not_lt.mpr h), min_eq_left h]
  · intro hout pre post m0
    unfold getApplicableLimitLinear
    rw [List.foldl_append, List.foldl_append, List.foldl_cons, hstep, if_neg hout]

/-- C2 witness: the literal numbers of the zone-extension property — start
962000, end 964000, train length 600: chainage 964500 is governed by the
order (limit 30 below a global MPS of 120) and a speed of limit + 1 there
is a warning, while chainage 964700 is past the extended zone and keeps
the global MPS. -/
theorem C2_caution_zone_interval_witness :
    getApplicableLimitLinear 964500 120 [⟨.plain 962, .plain 964, 30⟩] 600 = 30 ∧
    classify 31 30 = .warning ∧
    getApplicableLimitLinear 964700 120 [⟨.plain 962, .plain 964, 30⟩] 600 = 120 := by
  refine ⟨?_, by norm_num [classify], ?_⟩
  · have h := (C2_caution_zone_interval ⟨.plain 962, .plain 964, 30⟩ 964500 120 600).1
      (by norm_num [inZone, oheToMeters])
    simpa using h
  · have h := (C2_caution_zone_interval ⟨.plain 962, .plain 964, 30⟩ 964700 120 600).2
      (by norm_num [inZone, oheToMeters]) [] [] 120
    simpa [getApplicableLimitLinear] using h

/-- C7. Projection onto a segment succeeds exactly when the segment bearing
is within 45° of the point's heading (smaller angle modulo 360) and the
normalized projection parameter lies in `[-0.1, 1.1]`; the successful value
is `aChainage + t * segmentLength` with `segmentLength` the (haversine)
distance from A to B. Stated for bearings and headings in `[0, 360)`, the
range the source's `getBearing` produces. -/
theorem C7_projection (bearingF distF : ℚ → ℚ → ℚ → ℚ → ℚ)
    (pLat pLon pHeading aLat aLon aM bLat bLon : ℚ)
    (hb0 : 0 ≤ bearingF aLat aLon bLat bLon)
    (hb1 : bearingF aLat aLon bLat bLon < 360)
    (hh0 : 0 ≤ pHeading) (hh1 : pHeading < 360) :
    getProjectedChainage bearingF distF pLat pLon pHeading aLat aLon aM bLat bLon =
      if 45 < angleDelta (bearingF aLat aLon bLat bLon) pHeading ∨
          projParam pLat pLon aLat aLon bLat bLon < -(1/10) ∨
          projParam pLat pLon aLat aLon bLat bLon > 11/10 then none
      else some (aM + projParam pLat pLon aLat aLon bLat bLon *
        distF aLat aLon bLat bLon) := by
  have habs : |bearingF aLat aLon bLat bLon - pHeading| < 360 :=
    abs_lt.mpr ⟨by linarith, by linarith⟩
  have habs0 : 0 ≤ |bearingF aLat aLon bLat bLon - pHeading| := abs_nonneg _
  have hdiff : (if |bearingF aLat aLon bLat bLon - pHeading| > 180 then
        360 - |bearingF aLat aLon bLat bLon - pHeading|
      else |bearingF aLat aLon bLat bLon - pHeading|) =
      angleDelta (bearingF aLat aLon bLat bLon) pHeading := by
    unfold angleDelta
    split_ifs with h
    · exact (min_eq_right (by linarith)).symm
    · exact (min_eq_left (by linarith)).symm
  have ht : (if (bLat - aLat) * (bLat - aLat) + (bLon - aLon) * (bLon - aLon) ≠ 0 then
        ((pLat - aLat) * (bLat - aLat) + (pLon - aLon) * (bLon - aLon)) /
          ((bLat - aLat) * (bLat - aLat) + (bLon - aLon) * (bLon - aLon))
      else -1) = projParam pLat pLon aLat aLon bLat bLon := by
    by_cases h : (bLat - aLat) * (bLat - aLat) + (bLon - aLon) * (bLon - aLon) = 0 <;>
      simp [projParam, h]
  simp only [getProjectedChainage]
  rw [hdiff, ht]
  by_cases h1 : angleDelta (bearingF aLat aLon bLat bLon) pHeading > 45
  · rw [if_pos h1, if_pos (Or.inl h1)]
  · rw [if_neg h1]
    by_cases h2 : projParam pLat pLon aLat aLon bLat bLon < -(1/10) ∨
        projParam pLat pLon aLat aLon bLat bLon > 11/10
    · rw [if_pos h2, if_pos (Or.inr h2)]
    · rw [if_neg h2, if_neg (by tauto)]

/-- C7 witness: a concrete projection with segment bearing 90°, heading
80° (difference 10° ≤ 45°) and projection parameter 1/2 succeeds and
returns the start chainage plus half the segment length. -/
theorem C7_projection_witness :
    getProjectedChainage (fun _ _ _ _ => 90) (fun _ _ _ _ => 100)
      0 (1/2) 80 0 0 5000 0 1 = some 5050 := by
  have h := C7_projection (fun _ _ _ _ => 90) (fun _ _ _ _ => 100)
    0 (1/2) 80 0 0 5000 0 1 (by norm_num) (by norm_num) (by norm_num) (by norm_num)
  rw [h]
  norm_num [angleDelta, projParam]

/-- A zero-speed sample extends the current run (or starts one). -/
theorem stopScan_cons_zero (near : Sample → Bool) (acc : Option Sample)
    (p : Sample) (rest : List Sample) (h : p.speed = 0) :
    stopScan near acc (p :: rest) = stopScan near (some (acc.getD p)) rest := by
  cases acc <;> simp [stopScan, h]

/-- A non-zero-speed sample outside a run is skipped. -/
theorem stopScan_cons_nz_none (near : Sample → Bool) (p : Sample)
    (rest : List Sample) (h : p.speed ≠ 0) :
    stopScan near none (p :: rest) = stopScan near none rest := by
  simp [stopScan, h]

/-- A non-zero-speed sample ends the current run, reporting it exactly when
it lasted more than 30 000 ms. -/
theorem stopScan_cons_nz_some (near : Sample → Bool) (s p : Sample)
    (rest : List Sample) (h : p.speed ≠ 0) :
    stopScan near (some s) (p :: rest) =
      (if 30000 < p.time - s.time then [mkStoppage near s p] else []) ++
        stopScan near none rest := by
  simp [stopScan, h]

/-- A run of zero-speed samples carries the saved run-start sample through
to the terminating non-zero sample. -/
theorem stopScan_run (near : Sample → Bool) (zeros : List Sample)
    (hz : ∀ q ∈ zeros, q.speed = 0) (s p : Sample) (rest : List Sample)
    (hp : p.speed ≠ 0) :
    stopScan near (some s) (zeros ++ p :: rest) =
      (if 30000 < p.time - s.time then [mkStoppage near s p] else []) ++
        stopScan near none rest := by
  induction zeros with
  | nil => simpa using stopScan_cons_nz_some near s p rest hp
  | cons z zs ih =>
    have hzz : z.speed = 0 := hz z (by simp)
    rw [List.cons_append, stopScan_cons_zero near (some s) z _ hzz]
    exact ih (fun q hq => hz q (by simp [hq]))

/-- C8. A maximal run of consecutive zero-speed samples of the valid
section, terminated by a non-zero-speed sample `p`, is reported as a
stoppage (with `arrivalTime` the first zero sample's timestamp and
`departureTime` the terminating sample's timestamp) precisely when
`departureTime − arrivalTime` exceeds 30 000 ms; samples outside any run
contribute nothing, and scanning resumes after the terminating sample. -/
theorem C8_stoppage_threshold (near : Sample → Bool) (s : Sample)
    (zeros : List Sample) (p : Sample) (rest : List Sample)
    (hs : s.speed = 0) (hz : ∀ q ∈ zeros, q.speed = 0) (hp : p.speed ≠ 0) :
    (stoppages near (s :: (zeros ++ p :: rest)) =
      (if 30000 < p.time - s.time then [mkStoppage near s p] else []) ++
        stoppages near rest) ∧
    (mkStoppage near s p).arrivalTime = s.time ∧
    (mkStoppage near s p).departureTime = p.time ∧
    (∀ (q : Sample) (l : List Sample), q.speed ≠ 0 →
      stoppages near (q :: l) = stoppages near l) := by
  refine ⟨?_, rfl, rfl, fun q l hq => stopScan_cons_nz_none near q l hq⟩
  unfold stoppages
  rw [stopScan_cons_zero near none s _ hs]
  simpa using stopScan_run near zeros hz s p rest hp

/-- C8 witness: a zero-speed run of exactly 30.0 s is not a stoppage and a
run of 31 s is. -/
theorem C8_stoppage_threshold_witness :
    stoppages (fun _ => false) [⟨0, 0, 0, 0, 0, 0⟩, ⟨1, 0, 0, 5, 30000, 0⟩] = [] ∧
    stoppages (fun _ => false) [⟨0, 0, 0, 0, 0, 0⟩, ⟨1, 0, 0, 5, 31000, 0⟩] =
      [mkStoppage (fun _ => false) ⟨0, 0, 0, 0, 0, 0⟩ ⟨1, 0, 0, 5, 31000, 0⟩] := by
  constructor
  · have h := (C8_stoppage_threshold (fun _ => false) ⟨0, 0, 0, 0, 0, 0⟩ []
      ⟨1, 0, 0, 5, 30000, 0⟩ [] rfl (by simp) (by decide)).1
    simp only [List.nil_append] at h
    rw [h]
    norm_num [stoppages, stopScan]
  · have h := (C8_stoppage_threshold (fun _ => false) ⟨0, 0, 0, 0, 0, 0⟩ []
      ⟨1, 0, 0, 5, 31000, 0⟩ [] rfl (by simp) (by decide)).1
    simp only [List.nil_append] at h
    rw [h]
    norm_num [stoppages, stopScan]

/-- An index scan returns the verdict of the first index that yields one. -/
theorem scanIdx_eq_some_of_first {α : Type} (f : ℕ → Option α) (v : α) :
    ∀ (n s i : ℕ), s ≤ i → i < s + n → f i = some v →
      (∀ j, s ≤ j → j < i → f j = none) → scanIdx f s n = some v := by
  intro n
  induction n with
  | zero => intro s i hsi hin _ _; omega
  | succ n ih =>
    intro s i hsi hin hv hnone
    by_cases hse : s = i
    · subst hse
      unfold scanIdx
      rw [hv]
    · have hs : f s = none := hnone s le_rfl (lt_of_le_of_ne hsi hse)
      unfold scanIdx
      rw [hs]
      exact ih (s + 1) i (by omega) (by omega) hv
        (fun j hj1 hj2 => hnone j (by omega) hj2)

/-- A successful index scan comes from some step in range. -/
theorem scanIdx_eq_some {α : Type} (f : ℕ → Option α) (v : α) :
    ∀ (n s : ℕ), scanIdx f s n = some v → ∃ i, s ≤ i ∧ i < s + n ∧ f i = some v := by
  intro n
  induction n with
  | zero => intro s h; exact absurd h (by unfold scanIdx; simp)
  | succ n ih =>
    intro s h
    unfold scanIdx at h
    rcases hfs : f s with _ | w
    · rw [hfs] at h
      simp only [] at h
      obtain ⟨i, h1, h2, h3⟩ := ih (s + 1) h
      exact ⟨i, by omega, by omega, h3⟩
    · rw [hfs] at h
      simp only [] at h
      exact ⟨s, le_rfl, by omega, by rw [hfs, h]⟩

/-- Every BFT-scan verdict is a BFT record. -/
theorem bftStep_kind (sec : List Sample) (i : ℕ) (r : BrakeTest)
    (h : bftStep sec i = some r) : r.kind = .BFT := by
  unfold bftStep at h
  dsimp only at h
  split_ifs at h <;> (injection h with h2; subst h2; rfl)

/-- Every BPT-scan verdict is a BPT record. -/
theorem bptGo_kind (distF : ℚ → ℚ → ℚ → ℚ → ℚ) (start : Sample)
    (sec : List Sample) (r : BrakeTest) :
    ∀ (n s : ℕ), bptGo distF start sec s n = some r → r.kind = .BPT := by
  intro n
  induction n with
  | zero => intro s h; exact absurd h (by unfold bptGo; simp)
  | succ n ih =>
    intro s h
    unfold bptGo at h
    dsimp only at h
    split_ifs at h <;> first
      | (injection h with h2; subst h2; rfl)
      | simp at h
      | exact ih (s + 1) h

/-- Every BPT verdict, scanned or fallback, is a BPT record. -/
theorem bptResultList_kind (distF : ℚ → ℚ → ℚ → ℚ → ℚ) (start : Sample)
    (sec : List Sample) (r : BrakeTest) (h : r ∈ bptResultList distF start sec) :
    r.kind = .BPT := by
  unfold bptResultList at h
  rcases hgo : bptGo distF start sec 0 (sec.length - 1) with _ | u
  · rw [hgo] at h
    simp only [] at h
    unfold bptFallback at h
    rcases hf : sec.find? (fun p => decide (60 ≤ p.speed)) with _ | opp <;> rw [hf] at h
    · simp at h
    · simp only [] at h
      split_ifs at h
      · simp at h
        subst h
        rfl
      · simp at h
  · rw [hgo] at h
    simp at h
    subst h
    exact bptGo_kind distF start sec r (sec.length - 1) 0 hgo

/-- The BPT verdicts contribute nothing to a BFT filter. -/
theorem bptResultList_filter_bft (distF : ℚ → ℚ → ℚ → ℚ → ℚ) (start : Sample)
    (sec : List Sample) :
    (bptResultList distF start sec).filter (fun r => r.kind == TestKind.BFT) = [] := by
  apply List.filter_eq_nil_iff.mpr
  intro r hr
  have := bptResultList_kind distF start sec r hr
  simp [this]

/-- C3. BFT detection: (entry rule) a non-empty valid section whose first
sample exceeds 15 km/h yields exactly one BFT record, `not_performed`;
(proper rule) otherwise, if the scan (indices below `length − 1`) first
reaches a qualifying sample — speed in `[10, 15]` whose 20-sample lookahead
minimum is at least 5 below it, a zero speed qualifying since the minimum
is then 0 — before any sample above 15, the unique BFT record is `proper`
with `dropAmount = startSpeed − lowestSpeed`; and in every case at most one
BFT record is produced. -/
theorem C3_bft_detection :
    (∀ (distF : ℚ → ℚ → ℚ → ℚ → ℚ) (s0 : Sample) (rest : List Sample),
      15 < s0.speed →
      (brakeTests distF (s0 :: rest)).filter (fun r => r.kind == TestKind.BFT) =
        [⟨.BFT, .not_performed, s0.speed, s0.speed, 0⟩]) ∧
    (∀ (distF : ℚ → ℚ → ℚ → ℚ → ℚ) (s0 : Sample) (rest : List Sample) (i : ℕ),
      ¬ 15 < s0.speed → i < (s0 :: rest).length - 1 →
      bftQualifies (s0 :: rest) i →
      (∀ j < i, ¬ bftDisqualifies (s0 :: rest) j ∧ ¬ bftQualifies (s0 :: rest) j) →
      (brakeTests distF (s0 :: rest)).filter (fun r => r.kind == TestKind.BFT) =
        [⟨.BFT, .proper, ((s0 :: rest).getD i dummySample).speed,
          bftWindowMin (s0 :: rest) i,
          ((s0 :: rest).getD i dummySample).speed - bftWindowMin (s0 :: rest) i⟩]) ∧
    (∀ (distF : ℚ → ℚ → ℚ → ℚ → ℚ) (sec : List Sample),
      ((brakeTests distF sec).filter (fun r => r.kind == TestKind.BFT)).length ≤ 1) := by
  refine ⟨?_, ?_, ?_⟩
  · intro distF s0 rest h
    simp only [brakeTests]
    rw [if_pos h]
    rfl
  · intro distF s0 rest i hle hi hq hfirst
    have hstep : bftStep (s0 :: rest) i =
        some ⟨.BFT, .proper, ((s0 :: rest).getD i dummySample).speed,
          bftWindowMin (s0 :: rest) i,
          ((s0 :: rest).getD i dummySample).speed - bftWindowMin (s0 :: rest) i⟩ := by
      obtain ⟨h1, h2, h3⟩ := hq
      unfold bftStep
      dsimp only
      rw [if_neg (not_lt.mpr h2), if_pos ⟨h1, h2⟩,
        if_pos (show 5 ≤ ((s0 :: rest).getD i dummySample).speed -
          bftWindowMin (s0 :: rest) i by omega)]
    have hnone : ∀ j, 0 ≤ j → j < i → bftStep (s0 :: rest) j = none := by
      intro j _ hj
      obtain ⟨hnd, hnq⟩ := hfirst j hj
      unfold bftStep
      dsimp only
      rw [if_neg (show ¬ ((s0 :: rest).getD j dummySample).speed > 15 from hnd)]
      by_cases hb : 10 ≤ ((s0 :: rest).getD j dummySample).speed ∧
          ((s0 :: rest).getD j dummySample).speed ≤ 15
      · rw [if_pos hb]
        have hm : ¬ (bftWindowMin (s0 :: rest) j ≤
            ((s0 :: rest).getD j dummySample).speed - 5) :=
          fun hmle => hnq ⟨hb.1, hb.2, hmle⟩
        rw [if_neg (show ¬ 5 ≤ ((s0 :: rest).getD j dummySample).speed -
          bftWindowMin (s0 :: rest) j by omega)]
      · rw [if_neg hb]
    have hscan : bftScan (s0 :: rest) =
        some ⟨.BFT, .proper, ((s0 :: rest).getD i dummySample).speed,
          bftWindowMin (s0 :: rest) i,
          ((s0 :: rest).getD i dummySample).speed - bftWindowMin (s0 :: rest) i⟩ := by
      unfold bftScan
      exact scanIdx_eq_some_of_first (bftStep (s0 :: rest)) _
        ((s0 :: rest).length - 1) 0 i (by omega) (by omega) hstep hnone
    simp only [brakeTests]
    rw [if_neg hle, hscan, List.filter_append, bptResultList_filter_bft,
      List.append_nil]
    rfl
  · intro distF sec
    match sec with
    | [] => simp [brakeTests]
    | s0 :: rest =>
      simp only [brakeTests]
      by_cases h : s0.speed > 15
      · rw [if_pos h]
        simp
      · rw [if_neg h, List.filter_append, bptResultList_filter_bft, List.append_nil]
        calc ((bftScan (s0 :: rest)).toList.filter
              (fun r => r.kind == TestKind.BFT)).length
            ≤ (bftScan (s0 :: rest)).toList.length := List.length_filter_le _ _
          _ ≤ 1 := by cases bftScan (s0 :: rest) <;> simp

/-- C3 witness: a trip starting at 0 km/h that reaches 12 km/h and drops
to 6 km/h within the lookahead window gets a unique `proper` BFT record
with `dropAmount = 6`. -/
theorem C3_bft_detection_witness :
    (brakeTests (fun _ _ _ _ => 0)
        [⟨0, 0, 0, 0, 0, 0⟩, ⟨1, 0, 0, 12, 1000, 0⟩, ⟨2, 0, 0, 6, 2000, 0⟩]).filter
      (fun r => r.kind == TestKind.BFT) = [⟨.BFT, .proper, 12, 6, 6⟩] := by
  have h := C3_bft_detection.2.1 (fun _ _ _ _ => 0) ⟨0, 0, 0, 0, 0, 0⟩
    [⟨1, 0, 0, 12, 1000, 0⟩, ⟨2, 0, 0, 6, 2000, 0⟩] 1
    (by decide) (by decide) (by decide)
    (by intro j hj; interval_cases j; exact ⟨by decide, by decide⟩)
  rw [h]
  decide

/-- If no in-range sample reaches 60 km/h, the BPT scan reports nothing. -/
theorem bptGo_none (distF : ℚ → ℚ → ℚ → ℚ → ℚ) (start : Sample)
    (sec : List Sample)
    (h : ∀ p ∈ sec, distF start.lat start.lon p.lat p.lon ≤ 15000 → p.speed < 60) :
    ∀ (n s : ℕ), bptGo distF start sec s n = none := by
  intro n
  induction n with
  | zero => intro s; rfl
  | succ n ih =>
    intro s
    unfold bptGo
    dsimp only
    by_cases hd : distF start.lat start.lon (sec.getD s dummySample).lat
        (sec.getD s dummySample).lon > 15000
    · rw [if_pos hd]
    · rw [if_neg hd]
      have hcond : ¬ (60 ≤ (sec.getD s dummySample).speed ∧
          ((bptWindowMin sec s : ℤ) : ℚ) ≤ ((sec.getD s dummySample).speed : ℤ) * (1/2)) := by
        rintro ⟨h60, _⟩
        by_cases hs : s < sec.length
        · have hmem : sec.getD s dummySample ∈ sec := by
            rw [List.getD_eq_getElem sec dummySample hs]
            exact List.getElem_mem hs
          have := h _ hmem (not_lt.mp hd)
          omega
        · rw [List.getD_eq_default sec dummySample (not_lt.mp hs)] at h60
          exact absurd h60 (by decide)
      rw [if_neg hcond]
      exact ih (s + 1)

/-- The BFT scan's verdicts contribute nothing to a BPT filter. -/
theorem bftScan_filter_bpt (sec : List Sample) :
    (bftScan sec).toList.filter (fun r => r.kind == TestKind.BPT) = [] := by
  rcases hscan : bftScan sec with _ | r
  · rfl
  · unfold bftScan at hscan
    obtain ⟨i, _, _, hstep⟩ := scanIdx_eq_some (bftStep sec) r (sec.length - 1) 0 hscan
    have := bftStep_kind sec i r hstep
    simp [this]

/-- C4 (amended). If the valid section is empty, or its entry speed is at
most 15 km/h and no section sample within 15 000 m (haversine from the
section's first sample) reaches 60 km/h, the brake-test results contain no
BPT record at all. (The entry-speed proviso is forced by the source: an
entry speed above 15 pushes a BPT `not_performed` record alongside the BFT
one.) -/
theorem C4_bpt_absence_amended (distF : ℚ → ℚ → ℚ → ℚ → ℚ) :
    ((brakeTests distF []).filter (fun r => r.kind == TestKind.BPT) = []) ∧
    (∀ (s0 : Sample) (rest : List Sample),
      ¬ 15 < s0.speed →
      (∀ p ∈ s0 :: rest, distF s0.lat s0.lon p.lat p.lon ≤ 15000 → p.speed < 60) →
      (brakeTests distF (s0 :: rest)).filter (fun r => r.kind == TestKind.BPT) = []) := by
  refine ⟨rfl, ?_⟩
  intro s0 rest hle h
  simp only [brakeTests]
  rw [if_neg hle, List.filter_append, bftScan_filter_bpt]
  have hfall : bptResultList distF s0 (s0 :: rest) = [] := by
    unfold bptResultList
    rw [bptGo_none distF s0 (s0 :: rest) h ((s0 :: rest).length - 1) 0]
    unfold bptFallback
    rcases hf : (s0 :: rest).find? (fun p => decide (60 ≤ p.speed)) with _ | opp
    · rw [hf]
    · have hopp : (60 : ℤ) ≤ opp.speed := by
        have := List.find?_some hf
        simpa using this
      have hmem : opp ∈ s0 :: rest := List.mem_of_find?_eq_some hf
      have hdist : ¬ distF s0.lat s0.lon opp.lat opp.lon ≤ 15000 := by
        intro hd
        have := h opp hmem hd
        omega
      rw [hf]
      dsimp only
      rw [if_neg hdist]
  rw [hfall]
  rfl

/-- C4 witness for the amended claim: a single-sample section at 10 km/h
with all distances 0 produces no BPT record. -/
theorem C4_bpt_absence_amended_witness :
    (brakeTests (fun _ _ _ _ => 0) [⟨0, 0, 0, 10, 0, 0⟩]).filter
      (fun r => r.kind == TestKind.BPT) = [] :=
  (C4_bpt_absence_amended (fun _ _ _ _ => 0)).2 ⟨0, 0, 0, 10, 0, 0⟩ []
    (by decide) (by decide)

/-- C4 counterexample to the claim as stated: a section entered at
20 km/h, in which no sample within 15 000 m reaches 60 km/h, nevertheless
produces a BPT record (the forced `not_performed`). -/
theorem C4_bpt_counterexample :
    (∀ p ∈ [(⟨0, 0, 0, 20, 0, 0⟩ : Sample)],
      (fun _ _ _ _ => (0 : ℚ)) (0 : ℚ) (0 : ℚ) p.lat p.lon ≤ 15000 → p.speed < 60) ∧
    (brakeTests (fun _ _ _ _ => 0) [⟨0, 0, 0, 20, 0, 0⟩]).filter
      (fun r => r.kind == TestKind.BPT) =
      [⟨.BPT, .not_performed, 20, 20, 0⟩] := by
  constructor
  · decide
  · decide

/-- If every candidate's looked-up distance exceeds the threshold, the
candidate fold never produces a best distance within the threshold. -/
theorem candFold_far (distF : ℚ → ℚ → ℚ → ℚ → ℚ) (tele : List Sample)
    (lat lon threshold : ℚ) :
    ∀ (l : List Sample) (acc : Option (Sample × ℚ)),
      (∀ c ∈ l, threshold < distF lat lon (tele.getD c.idx dummySample).lat
        (tele.getD c.idx dummySample).lon) →
      (∀ bp bd, acc = some (bp, bd) → threshold < bd) →
      ∀ bp bd, l.foldl (candStep distF tele lat lon) acc = some (bp, bd) →
        threshold < bd := by
  intro l
  induction l with
  | nil => intro acc _ hacc bp bd h; exact hacc bp bd h
  | cons c t ih =>
    intro acc hl hacc bp bd h
    rw [List.foldl_cons] at h
    refine ih (candStep distF tele lat lon acc c) (fun x hx => hl x (by simp [hx]))
      ?_ bp bd h
    intro bp2 bd2 hstep
    have hc := hl c (by simp)
    unfold candStep at hstep
    rcases acc with _ | ⟨bp0, bd0⟩
    · dsimp only at hstep
      injection hstep with h2
      have h3 := Prod.mk.inj h2
      rw [← h3.2]
      exact hc
    · dsimp only at hstep
      split_ifs at hstep with hlt
      · injection hstep with h2
        have := Prod.mk.inj h2
        rw [← this.2]
        exact hc
      · injection hstep with h2
        have := Prod.mk.inj h2
        rw [← this.2]
        exact hacc bp0 bd0 rfl

/-- C9. An asset all of whose telemetry candidates lie beyond the match
threshold (the caller-supplied max distance when positive, else 500 m)
produces an unmatched record — `matched = false`, `speed_kmph = null`,
`limit_applied = null`, status `ok` — that adds one to `total_structures`,
nothing to `matched_structures` (hence one to `unmatched_structures`,
their difference), and nothing to the violation or warning counts. -/
theorem C9_unmatched_asset (bearingF distF : ℚ → ℚ → ℚ → ℚ → ℚ)
    (tele : List Sample) (maxDistance globalMPS : ℚ)
    (cautionOrders : List CautionOrder) (trainLength : ℚ) (row : AssetRow)
    (next : Option AssetRow) (la lo : ℚ)
    (hcoords : effCoords row = some (la, lo))
    (hfar : ∀ c ∈ gridQuery (1/100) tele la lo,
      thresholdOf maxDistance < distF la lo (tele.getD c.idx dummySample).lat
        (tele.getD c.idx dummySample).lon) :
    (processAsset bearingF distF tele (thresholdOf maxDistance) globalMPS
        cautionOrders trainLength .OHE row next =
      some ({ location := row.label, latitude := la, longitude := lo,
              logging_time := none, speed_kmph := none, limit_applied := none,
              status := .ok, matched := false, source := .OHE,
              chainage := 0 }, none)) ∧
    (0 < maxDistance → thresholdOf maxDistance = maxDistance) ∧
    (¬ 0 < maxDistance → thresholdOf maxDistance = 500) ∧
    (∀ (rs : List AnalysisResult) (r : AnalysisResult),
      r.matched = false → r.status = .ok →
      totalStructures (r :: rs) = totalStructures rs + 1 ∧
      matchedStructures (r :: rs) = matchedStructures rs ∧
      violationCount (r :: rs) = violationCount rs ∧
      warningCount (r :: rs) = warningCount rs) := by
  refine ⟨?_, fun h => by unfold thresholdOf; rw [if_pos h],
    fun h => by unfold thresholdOf; rw [if_neg h], ?_⟩
  · unfold processAsset
    rw [hcoords]
    dsimp only
    rcases hbc : bestCandidate distF tele la lo with _ | ⟨bp, bd⟩
    · rfl
    · have hfarb : thresholdOf maxDistance < bd := by
        unfold bestCandidate at hbc
        exact candFold_far distF tele la lo (thresholdOf maxDistance) _ none hfar
          (by intro bp2 bd2 h2; exact absurd h2 (by simp)) bp bd hbc
      dsimp only
      rw [if_neg (not_le.mpr hfarb)]
  · intro rs r hm hs
    refine ⟨rfl, ?_, ?_, ?_⟩ <;>
      simp [matchedStructures, violationCount, warningCount, List.filter_cons, hm, hs]

/-- C9 witness: a telemetry stream whose single sample is 1000 m away
(under the abstracted distance) from the asset, with `maxDistance = 0`
selecting the 500 m default threshold, leaves the asset unmatched. -/
theorem C9_unmatched_asset_witness :
    processAsset (fun _ _ _ _ => 0) (fun _ _ _ _ => 1000) [⟨0, 0, 0, 50, 0, 0⟩]
        (thresholdOf 0) 110 [] 600 .OHE ⟨.kmPole 962 10, some 0, some 0⟩ none =
      some ({ location := .kmPole 962 10, latitude := 0, longitude := 0,
              logging_time := none, speed_kmph := none, limit_applied := none,
              status := .ok, matched := false, source := .OHE,
              chainage := 0 }, none) :=
  (C9_unmatched_asset (fun _ _ _ _ => 0) (fun _ _ _ _ => 1000) [⟨0, 0, 0, 50, 0, 0⟩]
    0 110 [] 600 ⟨.kmPole 962 10, some 0, some 0⟩ none 0 0 (by decide)
    (by
      intro c hc
      norm_num [thresholdOf])).1

/-- An asset row produces a result exactly when its coordinates parse. -/
theorem processAsset_isSome (bearingF distF : ℚ → ℚ → ℚ → ℚ → ℚ)
    (tele : List Sample) (threshold globalMPS : ℚ)
    (cautionOrders : List CautionOrder) (trainLength : ℚ) (srcType : Source)
    (row : AssetRow) (next : Option AssetRow) :
    (processAsset bearingF distF tele threshold globalMPS cautionOrders
      trainLength srcType row next).isSome = (effCoords row).isSome := by
  unfold processAsset
  rcases hc : effCoords row with _ | ⟨la, lo⟩
  · rfl
  · dsimp only
    rcases bestCandidate distF tele la lo with _ | ⟨bp, bd⟩
    · rfl
    · dsimp only
      split_ifs <;> rfl

/-- The length of a `filterMap` counts the elements mapped to `some`. -/
theorem length_filterMap_eq_countP {α β : Type} (f : α → Option β) :
    ∀ l : List α, (l.filterMap f).length = l.countP (fun x => (f x).isSome) := by
  intro l
  induction l with
  | nil => rfl
  | cons a t ih =>
    rw [List.filterMap_cons, List.countP_cons]
    rcases hf : f a with _ | b
    · simp [hf, ih]
    · simp [hf, ih]

/-- Pairing rows with their successors preserves head-based counts. -/
theorem withNext_countP (p : AssetRow → Bool) :
    ∀ data : List AssetRow,
      (withNext data).countP (fun rn => p rn.1) = data.countP p := by
  intro data
  induction data with
  | nil => rfl
  | cons a t ih =>
    cases t with
    | nil => simp [withNext, List.countP_cons]
    | cons b t2 =>
      rw [show withNext (a :: b :: t2) = (a, some b) :: withNext (b :: t2) from rfl,
        List.countP_cons, List.countP_cons, ih]

/-- The results list has one entry per asset row with parseable
coordinates. -/
theorem processDataset_length (bearingF distF : ℚ → ℚ → ℚ → ℚ → ℚ)
    (tele : List Sample) (threshold globalMPS : ℚ)
    (cautionOrders : List CautionOrder) (trainLength : ℚ) (srcType : Source)
    (data : List AssetRow) :
    ((processDataset bearingF distF tele threshold globalMPS
        cautionOrders trainLength srcType data).map (fun x => x.1)).length =
      (data.filter (fun r => (effCoords r).isSome)).length := by
  unfold processDataset
  rw [List.length_map, length_filterMap_eq_countP]
  have heq : ∀ rn : AssetRow × Option AssetRow,
      ((processAsset bearingF distF tele threshold globalMPS cautionOrders
        trainLength srcType rn.1 rn.2).isSome) = (effCoords rn.1).isSome :=
    fun rn => processAsset_isSome bearingF distF tele threshold globalMPS
      cautionOrders trainLength srcType rn.1 rn.2
  calc (withNext data).countP (fun rn =>
        (processAsset bearingF distF tele threshold globalMPS cautionOrders
          trainLength srcType rn.1 rn.2).isSome)
      = (withNext data).countP (fun rn => (effCoords rn.1).isSome) := by
        apply List.countP_congr
        intro rn _
        rw [heq rn]
    _ = data.countP (fun r => (effCoords r).isSome) :=
        withNext_countP (fun r => (effCoords r).isSome) data
    _ = (data.filter (fun r => (effCoords r).isSome)).length :=
        List.countP_eq_length_filter _ _

/-- C10. An asset-catalogue row whose latitude or longitude does not parse
is silently skipped: it produces no result record at all, and
`total_structures` (the length of the results list) counts exactly the
rows whose coordinates parse — so a skipped row is absent from the results
list and from every summary count derived from it. -/
theorem C10_invalid_coords_skipped (bearingF distF : ℚ → ℚ → ℚ → ℚ → ℚ)
    (tele : List Sample) (threshold globalMPS : ℚ)
    (cautionOrders : List CautionOrder) (trainLength : ℚ) (srcType : Source) :
    (∀ (row : AssetRow) (next : Option AssetRow), effCoords row = none →
      processAsset bearingF distF tele threshold globalMPS cautionOrders
        trainLength srcType row next = none) ∧
    (∀ data : List AssetRow,
      totalStructures ((processDataset bearingF distF tele threshold globalMPS
          cautionOrders trainLength srcType data).map (fun x => x.1)) =
        (data.filter (fun r => (effCoords r).isSome)).length) := by
  constructor
  · intro row next h
    unfold processAsset
    rw [h]
  · intro data
    exact processDataset_length bearingF distF tele threshold globalMPS
      cautionOrders trainLength srcType data

/-- C10 witness: a row with an unparseable latitude vanishes from the
results — a two-row catalogue in which it is first yields a single result. -/
theorem C10_invalid_coords_skipped_witness :
    processAsset (fun _ _ _ _ => 0) (fun _ _ _ _ => 0) [] 500 110 [] 600 .OHE
        ⟨.invalid, none, some 1⟩ none = none ∧
    totalStructures ((processDataset (fun _ _ _ _ => 0) (fun _ _ _ _ => 0) [] 500
        110 [] 600 .OHE [⟨.invalid, none, some 1⟩, ⟨.plain 5, some 1, some 1⟩]).map
      (fun x => x.1)) = 1 := by
  constructor
  · exact (C10_invalid_coords_skipped (fun _ _ _ _ => 0) (fun _ _ _ _ => 0) [] 500
      110 [] 600 .OHE).1 ⟨.invalid, none, some 1⟩ none rfl
  · rw [(C10_invalid_coords_skipped (fun _ _ _ _ => 0) (fun _ _ _ _ => 0) [] 500
      110 [] 600 .OHE).2 [⟨.invalid, none, some 1⟩, ⟨.plain 5, some 1, some 1⟩]]
    rfl

/-- The running index minimum is a lower bound of the seed and of every
element's index. -/
theorem foldlMin_le (t : List Sample) :
    ∀ a : ℕ, t.foldl (fun x m => min x m.idx) a ≤ a ∧
      ∀ x ∈ t, t.foldl (fun x m => min x m.idx) a ≤ x.idx := by
  induction t with
  | nil => intro a; exact ⟨le_rfl, by simp⟩
  | cons m t ih =>
    intro a
    rw [List.foldl_cons]
    refine ⟨le_trans (ih (min a m.idx)).1 (min_le_left _ _), ?_⟩
    intro x hx
    rcases List.mem_cons.mp hx with rfl | hx2
    · exact le_trans (ih (min a x.idx)).1 (min_le_right _ _)
    · exact (ih (min a m.idx)).2 x hx2

/-- The running index minimum is the seed or some element's index. -/
theorem foldlMin_attained (t : List Sample) :
    ∀ a : ℕ, t.foldl (fun x m => min x m.idx) a = a ∨
      ∃ x ∈ t, t.foldl (fun x m => min x m.idx) a = x.idx := by
  induction t with
  | nil => intro a; exact Or.inl rfl
  | cons m t ih =>
    intro a
    rw [List.foldl_cons]
    rcases le_total a m.idx with hle | hle
    · rw [min_eq_left hle]
      rcases ih a with h | ⟨x, hx, hx2⟩
      · exact Or.inl h
      · exact Or.inr ⟨x, by simp [hx], hx2⟩
    · rw [min_eq_right hle]
      rcases ih m.idx with h | ⟨x, hx, hx2⟩
      · exact Or.inr ⟨m, by simp, h⟩
      · exact Or.inr ⟨x, by simp [hx], hx2⟩

/-- The running index maximum is an upper bound of the seed and of every
element's index. -/
theorem foldlMax_ge (t : List Sample) :
    ∀ a : ℕ, a ≤ t.foldl (fun x m => max x m.idx) a ∧
      ∀ x ∈ t, x.idx ≤ t.foldl (fun x m => max x m.idx) a := by
  induction t with
  | nil => intro a; exact ⟨le_rfl, by simp⟩
  | cons m t ih =>
    intro a
    rw [List.foldl_cons]
    refine ⟨le_trans (le_max_left _ _) (ih (max a m.idx)).1, ?_⟩
    intro x hx
    rcases List.mem_cons.mp hx with rfl | hx2
    · exact le_trans (le_max_right _ _) (ih (max a x.idx)).1
    · exact (ih (max a m.idx)).2 x hx2

/-- The running index maximum is the seed or some element's index. -/
theorem foldlMax_attained (t : List Sample) :
    ∀ a : ℕ, t.foldl (fun x m => max x m.idx) a = a ∨
      ∃ x ∈ t, t.foldl (fun x m => max x m.idx) a = x.idx := by
  induction t with
  | nil => intro a; exact Or.inl rfl
  | cons m t ih =>
    intro a
    rw [List.foldl_cons]
    rcases le_total a m.idx with hle | hle
    · rw [max_eq_right hle]
      rcases ih m.idx with h | ⟨x, hx, hx2⟩
      · exact Or.inr ⟨m, by simp, h⟩
      · exact Or.inr ⟨x, by simp [hx], hx2⟩
    · rw [max_eq_left hle]
      rcases ih a with h | ⟨x, hx, hx2⟩
      · exact Or.inl h
      · exact Or.inr ⟨x, by simp [hx], hx2⟩

/-- Membership in the valid section unfolded to its index bounds. -/
theorem mem_validSection (cleaned : List Sample) (m0 : Sample) (t : List Sample)
    (q : Sample) :
    q ∈ validSection cleaned (m0 :: t) ↔
      q ∈ cleaned ∧ t.foldl (fun x m => min x m.idx) m0.idx ≤ q.idx ∧
        q.idx ≤ t.foldl (fun x m => max x m.idx) m0.idx := by
  unfold validSection matchedIdxBounds
  rw [List.mem_filter]
  simp [and_assoc]

/-- C5 (amended). When the cleaned telemetry's timestamps are strictly
increasing in original row index (i.e. the time sort does not reorder the
rows) and row indices are unique, the valid section — the samples whose
original row index lies between the minimum and maximum matched index — is
the contiguous slice of the telemetry between the first and last matched
sample: every cleaned sample between two valid-section samples in
timestamp order is itself in the valid section, and the time-earliest and
time-latest section samples are matched samples. (In general the source
slices by original row index, not by position in the time-sorted order, so
the contiguity claim fails when the sort permutes rows.) -/
theorem C5_valid_section_amended (cleaned : List Sample) (m0 : Sample)
    (t : List Sample) (hsub : ∀ m ∈ m0 :: t, m ∈ cleaned)
    (hnodup : (cleaned.map Sample.idx).Nodup)
    (hmono : ∀ p ∈ cleaned, ∀ q ∈ cleaned, p.idx < q.idx → p.time < q.time) :
    (∀ p q r : Sample, p ∈ validSection cleaned (m0 :: t) →
      r ∈ validSection cleaned (m0 :: t) → q ∈ cleaned →
      p.time ≤ q.time → q.time ≤ r.time →
      q ∈ validSection cleaned (m0 :: t)) ∧
    (∃ m ∈ m0 :: t, m ∈ validSection cleaned (m0 :: t) ∧
      ∀ p ∈ validSection cleaned (m0 :: t), m.time ≤ p.time) ∧
    (∃ m ∈ m0 :: t, m ∈ validSection cleaned (m0 :: t) ∧
      ∀ p ∈ validSection cleaned (m0 :: t), p.time ≤ m.time) := by
  have hinj : ∀ a ∈ cleaned, ∀ b ∈ cleaned, a.idx = b.idx → a = b :=
    fun a ha b hb hab => List.inj_on_of_nodup_map hnodup ha hb hab
  have hfle : ∀ m ∈ m0 :: t,
      t.foldl (fun x m => min x m.idx) m0.idx ≤ m.idx := by
    intro m hm
    rcases List.mem_cons.mp hm with rfl | hm2
    · exact (foldlMin_le t m.idx).1
    · exact (foldlMin_le t m0.idx).2 m hm2
  have hlge : ∀ m ∈ m0 :: t,
      m.idx ≤ t.foldl (fun x m => max x m.idx) m0.idx := by
    intro m hm
    rcases List.mem_cons.mp hm with rfl | hm2
    · exact (foldlMax_ge t m.idx).1
    · exact (foldlMax_ge t m0.idx).2 m hm2
  refine ⟨?_, ?_, ?_⟩
  · intro p q r hp hr hq hpq hqr
    rw [mem_validSection] at hp hr ⊢
    obtain ⟨hpc, hpf, hpl⟩ := hp
    obtain ⟨hrc, hrf, hrl⟩ := hr
    refine ⟨hq, ?_, ?_⟩
    · by_contra hlt
      push_neg at hlt
      have h1 : q.idx < p.idx := lt_of_lt_of_le hlt hpf
      have h2 := hmono q hq p hpc h1
      omega
    · by_contra hlt
      push_neg at hlt
      have h1 : r.idx < q.idx := lt_of_le_of_lt hrl hlt
      have h2 := hmono r hrc q hq h1
      omega
  · obtain ⟨mstar, hmstar, hidx⟩ :
        ∃ m ∈ m0 :: t, t.foldl (fun x m => min x m.idx) m0.idx = m.idx := by
      rcases foldlMin_attained t m0.idx with heq | ⟨x, hx, heq⟩
      · exact ⟨m0, by simp, heq⟩
      · exact ⟨x, by simp [hx], heq⟩
    refine ⟨mstar, hmstar, ?_, ?_⟩
    · rw [mem_validSection]
      exact ⟨hsub mstar hmstar, le_of_eq hidx, hlge mstar hmstar⟩
    · intro p hp
      rw [mem_validSection] at hp
      obtain ⟨hpc, hpf, _⟩ := hp
      have hle : mstar.idx ≤ p.idx := le_trans (le_of_eq hidx.symm) hpf
      rcases eq_or_lt_of_le hle with heq | hlt
      · rw [hinj mstar (hsub mstar hmstar) p hpc heq]
      · exact le_of_lt (hmono mstar (hsub mstar hmstar) p hpc hlt)
  · obtain ⟨mstar, hmstar, hidx⟩ :
        ∃ m ∈ m0 :: t, t.foldl (fun x m => max x m.idx) m0.idx = m.idx := by
      rcases foldlMax_attained t m0.idx with heq | ⟨x, hx, heq⟩
      · exact ⟨m0, by simp, heq⟩
      · exact ⟨x, by simp [hx], heq⟩
    refine ⟨mstar, hmstar, ?_, ?_⟩
    · rw [mem_validSection]
      exact ⟨hsub mstar hmstar, hfle mstar hmstar, le_of_eq hidx.symm⟩
    · intro p hp
      rw [mem_validSection] at hp
      obtain ⟨hpc, _, hpl⟩ := hp
      have hle : p.idx ≤ mstar.idx := le_trans hpl (le_of_eq hidx)
      rcases eq_or_lt_of_le hle with heq | hlt
      · rw [hinj p hpc mstar (hsub mstar hmstar) heq]
      · exact le_of_lt (hmono p hpc mstar (hsub mstar hmstar) hlt)

/-- C5 witness for the amended claim: a two-sample telemetry in original
order with the first sample matched. -/
theorem C5_valid_section_amended_witness :
    (∀ p q r : Sample,
      p ∈ validSection [⟨0, 0, 0, 3, 1, 0⟩, ⟨1, 0, 0, 3, 2, 0⟩] [⟨0, 0, 0, 3, 1, 0⟩] →
      r ∈ validSection [⟨0, 0, 0, 3, 1, 0⟩, ⟨1, 0, 0, 3, 2, 0⟩] [⟨0, 0, 0, 3, 1, 0⟩] →
      q ∈ [(⟨0, 0, 0, 3, 1, 0⟩ : Sample), ⟨1, 0, 0, 3, 2, 0⟩] →
      p.time ≤ q.time → q.time ≤ r.time →
      q ∈ validSection [⟨0, 0, 0, 3, 1, 0⟩, ⟨1, 0, 0, 3, 2, 0⟩] [⟨0, 0, 0, 3, 1, 0⟩]) ∧
    (∃ m ∈ [(⟨0, 0, 0, 3, 1, 0⟩ : Sample)],
      m ∈ validSection [⟨0, 0, 0, 3, 1, 0⟩, ⟨1, 0, 0, 3, 2, 0⟩] [⟨0, 0, 0, 3, 1, 0⟩] ∧
      ∀ p ∈ validSection [⟨0, 0, 0, 3, 1, 0⟩, ⟨1, 0, 0, 3, 2, 0⟩] [⟨0, 0, 0, 3, 1, 0⟩],
        m.time ≤ p.time) ∧
    (∃ m ∈ [(⟨0, 0, 0, 3, 1, 0⟩ : Sample)],
      m ∈ validSection [⟨0, 0, 0, 3, 1, 0⟩, ⟨1, 0, 0, 3, 2, 0⟩] [⟨0, 0, 0, 3, 1, 0⟩] ∧
      ∀ p ∈ validSection [⟨0, 0, 0, 3, 1, 0⟩, ⟨1, 0, 0, 3, 2, 0⟩] [⟨0, 0, 0, 3, 1, 0⟩],
        p.time ≤ m.time) :=
  C5_valid_section_amended [⟨0, 0, 0, 3, 1, 0⟩, ⟨1, 0, 0, 3, 2, 0⟩]
    ⟨0, 0, 0, 3, 1, 0⟩ [] (by decide) (by decide)
    (by decide)

/-- C5 counterexample to the claim as stated: a time-sorted cleaned
telemetry whose original row order differs from the time order. The first
and third samples (original rows 1 and 0) are matched, both lie in the
valid section, and the middle sample (original row 2) lies between them in
timestamp order yet is excluded, because the source slices by original row
index. -/
theorem C5_valid_section_counterexample :
    List.Pairwise (fun a b : Sample => a.time ≤ b.time)
      [⟨1, 0, 0, 3, 1, 0⟩, ⟨2, 0, 0, 3, 2, 0⟩, ⟨0, 0, 0, 3, 3, 0⟩] ∧
    (∀ m ∈ [(⟨1, 0, 0, 3, 1, 0⟩ : Sample), ⟨0, 0, 0, 3, 3, 0⟩],
      m ∈ [(⟨1, 0, 0, 3, 1, 0⟩ : Sample), ⟨2, 0, 0, 3, 2, 0⟩, ⟨0, 0, 0, 3, 3, 0⟩]) ∧
    (⟨1, 0, 0, 3, 1, 0⟩ : Sample) ∈
      validSection [⟨1, 0, 0, 3, 1, 0⟩, ⟨2, 0, 0, 3, 2, 0⟩, ⟨0, 0, 0, 3, 3, 0⟩]
        [⟨1, 0, 0, 3, 1, 0⟩, ⟨0, 0, 0, 3, 3, 0⟩] ∧
    (⟨0, 0, 0, 3, 3, 0⟩ : Sample) ∈
      validSection [⟨1, 0, 0, 3, 1, 0⟩, ⟨2, 0, 0, 3, 2, 0⟩, ⟨0, 0, 0, 3, 3, 0⟩]
        [⟨1, 0, 0, 3, 1, 0⟩, ⟨0, 0, 0, 3, 3, 0⟩] ∧
    (⟨1, 0, 0, 3, 1, 0⟩ : Sample).time ≤ (⟨2, 0, 0, 3, 2, 0⟩ : Sample).time ∧
    (⟨2, 0, 0, 3, 2, 0⟩ : Sample).time ≤ (⟨0, 0, 0, 3, 3, 0⟩ : Sample).time ∧
    (⟨2, 0, 0, 3, 2, 0⟩ : Sample) ∉
      validSection [⟨1, 0, 0, 3, 1, 0⟩, ⟨2, 0, 0, 3, 2, 0⟩, ⟨0, 0, 0, 3, 3, 0⟩]
        [⟨1, 0, 0, 3, 1, 0⟩, ⟨0, 0, 0, 3, 3, 0⟩] := by
  refine ⟨by decide, by decide, by decide, by decide, by decide, by decide, by decide⟩

/-- Typing a raw row preserves its timestamp. -/
theorem mkSample_time (i : ℕ) (r : RawRow) (s : Sample)
    (h : mkSample i r = some s) : s.time = r.time := by
  obtain ⟨rlat, rlon, rspeed, rtime⟩ := r
  rcases rlat with _ | la0
  · exact absurd h (by simp [mkSample])
  · rcases rlon with _ | lo0
    · exact absurd h (by simp [mkSample])
    · unfold mkSample at h
      dsimp only at h
      split_ifs at h <;> (injection h with h2; subst h2; rfl)

/-- When both window bounds are given and exclude every raw row, telemetry
preparation yields no samples at all. -/
theorem prepareTelemetry_empty (bearingF distF : ℚ → ℚ → ℚ → ℚ → ℚ)
    (rows : List RawRow) (d a : ℤ)
    (hw : ∀ r ∈ rows, ¬ (d ≤ r.time ∧ r.time ≤ a)) :
    prepareTelemetry bearingF distF rows (some d) (some a) = [] := by
  unfold prepareTelemetry
  have hfil : (rows.enum.filterMap (fun ir => mkSample ir.1 ir.2)).filter
      (fun p => inWindow (some d) (some a) p.time) = [] := by
    apply List.filter_eq_nil_iff.mpr
    intro s hs
    obtain ⟨ir, hir, hmk⟩ := List.mem_filterMap.mp hs
    have htime : s.time = ir.2.time := mkSample_time ir.1 ir.2 s hmk
    have hrow := hw ir.2 (List.snd_mem_of_mem_enum hir)
    unfold inWindow
    rw [htime]
    intro hb
    rcases Bool.and_eq_true .. ▸ hb with ⟨hb1, hb2⟩
    exact hrow ⟨of_decide_eq_true hb1, of_decide_eq_true hb2⟩
  rw [hfil]
  rfl

/-- With no telemetry at all, every parseable asset row is reported
unmatched and contributes no matched sample. -/
theorem processAsset_empty_tele (bearingF distF : ℚ → ℚ → ℚ → ℚ → ℚ)
    (threshold globalMPS : ℚ) (cautionOrders : List CautionOrder)
    (trainLength : ℚ) (srcType : Source) (row : AssetRow)
    (next : Option AssetRow) (res : AnalysisResult × Option Sample)
    (h : processAsset bearingF distF [] threshold globalMPS cautionOrders
      trainLength srcType row next = some res) :
    res.2 = none ∧ res.1.matched = false := by
  unfold processAsset at h
  rcases hc : effCoords row with _ | ⟨la, lo⟩ <;> rw [hc] at h
  · exact absurd h (by simp)
  · dsimp only at h
    have hbc : bestCandidate distF [] la lo = none := rfl
    rw [hbc] at h
    injection h with h2
    subst h2
    exact ⟨rfl, rfl⟩

/-- The valid section of an empty telemetry stream is empty. -/
theorem validSection_nil (matched : List Sample) :
    validSection [] matched = [] := by
  unfold validSection
  cases matchedIdxBounds matched with
  | none => rfl
  | some fl => cases fl; rfl

/-- C6 (amended). When both window bounds are supplied and exclude every
telemetry row, the analysis does not fail: it returns a normal result in
which the asset totals still count every parseable catalogue row, nothing
is matched, every result record is unmatched, and the brake-test and
stoppage collections are empty. (The canonical analyzer has no
empty-window error path; its only thrown errors concern missing CSV
columns, upstream of this core.) -/
theorem C6_empty_window_amended (bearingF distF : ℚ → ℚ → ℚ → ℚ → ℚ)
    (rows : List RawRow) (oheData : List AssetRow)
    (maxDistance globalMPS : ℚ) (cautionOrders : List CautionOrder)
    (trainType : TrainType) (d a : ℤ)
    (hw : ∀ r ∈ rows, ¬ (d ≤ r.time ∧ r.time ≤ a)) :
    (analyzeCore bearingF distF rows oheData maxDistance globalMPS
        cautionOrders trainType (some d) (some a)).1.total_structures =
      (oheData.filter (fun r => (effCoords r).isSome)).length ∧
    (analyzeCore bearingF distF rows oheData maxDistance globalMPS
        cautionOrders trainType (some d) (some a)).1.matched_structures = 0 ∧
    (analyzeCore bearingF distF rows oheData maxDistance globalMPS
        cautionOrders trainType (some d) (some a)).1.unmatched_structures =
      (analyzeCore bearingF distF rows oheData maxDistance globalMPS
        cautionOrders trainType (some d) (some a)).1.total_structures ∧
    (∀ res ∈ (analyzeCore bearingF distF rows oheData maxDistance globalMPS
        cautionOrders trainType (some d) (some a)).2, res.matched = false) ∧
    (analyzeCore bearingF distF rows oheData maxDistance globalMPS
        cautionOrders trainType (some d) (some a)).1.brake_tests = [] ∧
    (analyzeCore bearingF distF rows oheData maxDistance globalMPS
        cautionOrders trainType (some d) (some a)).1.stoppages = [] := by
  have hclean := prepareTelemetry_empty bearingF distF rows d a hw
  have hres : ∀ (th TL : ℚ) (res : AnalysisResult × Option Sample),
      res ∈ processDataset bearingF distF [] th globalMPS cautionOrders
        TL .OHE oheData → res.2 = none ∧ res.1.matched = false := by
    intro th TL res hmem
    unfold processDataset at hmem
    obtain ⟨rn, _, hF⟩ := List.mem_filterMap.mp hmem
    exact processAsset_empty_tele bearingF distF th globalMPS cautionOrders
      TL .OHE rn.1 rn.2 res hF
  have hmatched0 : ∀ th TL : ℚ,
      matchedStructures ((processDataset bearingF distF [] th globalMPS
        cautionOrders TL .OHE oheData).map (fun x => x.1)) = 0 := by
    intro th TL
    unfold matchedStructures
    rw [List.filter_eq_nil_iff.mpr ?_]
    · rfl
    · intro r hr
      obtain ⟨res, hmem, rfl⟩ := List.mem_map.mp hr
      rw [(hres th TL res hmem).2]
      exact Bool.false_ne_true
  unfold analyzeCore
  rw [hclean]
  dsimp only
  refine ⟨?_, ?_, ?_, ?_, ?_, ?_⟩
  · exact processDataset_length bearingF distF [] _ globalMPS cautionOrders _
      .OHE oheData
  · exact hmatched0 _ _
  · rw [hmatched0]
    exact Nat.sub_zero _
  · intro res hmem
    obtain ⟨x, hx, rfl⟩ := List.mem_map.mp hmem
    exact (hres _ _ x hx).2
  · rw [validSection_nil]
    rfl
  · rw [validSection_nil]
    rfl

/-- C6 witness for the amended claim: one telemetry row at time 100 with a
window `[200, 300]` leaves one parseable asset row fully unmatched with
empty detector output. -/
theorem C6_empty_window_amended_witness :
    (analyzeCore (fun _ _ _ _ => 0) (fun _ _ _ _ => 0)
        [⟨some 10, some 20, some 50, 100⟩] [⟨.plain 5, some 10, some 20⟩]
        500 110 [] .passenger (some 200) (some 300)).1.total_structures =
      ([(⟨.plain 5, some 10, some 20⟩ : AssetRow)].filter
        (fun r => (effCoords r).isSome)).length ∧
    (analyzeCore (fun _ _ _ _ => 0) (fun _ _ _ _ => 0)
        [⟨some 10, some 20, some 50, 100⟩] [⟨.plain 5, some 10, some 20⟩]
        500 110 [] .passenger (some 200) (some 300)).1.matched_structures = 0 ∧
    (analyzeCore (fun _ _ _ _ => 0) (fun _ _ _ _ => 0)
        [⟨some 10, some 20, some 50, 100⟩] [⟨.plain 5, some 10, some 20⟩]
        500 110 [] .passenger (some 200) (some 300)).1.brake_tests = [] := by
  have h := C6_empty_window_amended (fun _ _ _ _ => 0) (fun _ _ _ _ => 0)
    [⟨some 10, some 20, some 50, 100⟩] [⟨.plain 5, some 10, some 20⟩]
    500 110 [] .passenger 200 300 (by decide)
  exact ⟨h.1, h.2.1, h.2.2.2.2.1⟩

/-- C6 counterexample to the claim as stated: with both bounds given and
every telemetry row outside the window, the analysis returns a normal
result — a summary counting the asset as unmatched with all detectors
empty — rather than failing (the analyzer has no empty-window error
path). -/
theorem C6_empty_window_counterexample :
    (∀ r ∈ [(⟨some 10, some 20, some 50, 100⟩ : RawRow)],
      ¬ ((200 : ℤ) ≤ r.time ∧ r.time ≤ 300)) ∧
    (analyzeCore (fun _ _ _ _ => 0) (fun _ _ _ _ => 0)
        [⟨some 10, some 20, some 50, 100⟩] [⟨.plain 5, some 10, some 20⟩]
        500 110 [] .passenger (some 200) (some 300)).1.total_structures = 1 ∧
    (analyzeCore (fun _ _ _ _ => 0) (fun _ _ _ _ => 0)
        [⟨some 10, some 20, some 50, 100⟩] [⟨.plain 5, some 10, some 20⟩]
        500 110 [] .passenger (some 200) (some 300)).1.matched_structures = 0 ∧
    (analyzeCore (fun _ _ _ _ => 0) (fun _ _ _ _ => 0)
        [⟨some 10, some 20, some 50, 100⟩] [⟨.plain 5, some 10, some 20⟩]
        500 110 [] .passenger (some 200) (some 300)).1.unmatched_structures = 1 ∧
    (analyzeCore (fun _ _ _ _ => 0) (fun _ _ _ _ => 0)
        [⟨some 10, some 20, some 50, 100⟩] [⟨.plain 5, some 10, some 20⟩]
        500 110 [] .passenger (some 200) (some 300)).1.brake_tests = [] ∧
    (analyzeCore (fun _ _ _ _ => 0) (fun _ _ _ _ => 0)
        [⟨some 10, some 20, some 50, 100⟩] [⟨.plain 5, some 10, some 20⟩]
        500 110 [] .passenger (some 200) (some 300)).1.stoppages = [] ∧
    (analyzeCore (fun _ _ _ _ => 0) (fun _ _ _ _ => 0)
        [⟨some 10, some 20, some 50, 100⟩] [⟨.plain 5, some 10, some 20⟩]
        500 110 [] .passenger (some 200) (some 300)).2 =
      [{ location := .plain 5, latitude := 10, longitude := 20,
         logging_time := none, speed_kmph := none, limit_applied := none,
         status := .ok, matched := false, source := .OHE, chainage := 0 }] := by
  exact ⟨by decide, by decide, by decide, by decide, by decide, by decide, by decide⟩
